import Mathlib

/-!
Verification of the renewal orchestration core and the ArvanCloud DNS
provider of the `lego` repository, against its natural-language
specification.  Go code is shallowly embedded: durations are modelled as
exact integer nanosecond counts, Go `int(...)` conversion of a real
quotient is integer division truncating toward zero (`Int.tdiv`), fatal
`log.Fatal` calls are modelled as `Except.error` / terminal outcomes, and
external collaborators (ACME client, storage, backend HTTP API) are
explicit oracle fields or explicit state.
-/

namespace Cmd

/-- Nanoseconds in one day; `time.Until(..).Hours() / 24.0` is the exact
rational `ns / nsPerDay`, and Go `int(..)` truncates it toward zero. -/
def nsPerDay : Int := 86400 * 1000000000

/-- The slice of an `x509.Certificate` that `cmd_renew.go` reads: the
`IsCA` flag, the time until `NotAfter` (in nanoseconds, negative when the
certificate has expired), and the certificate's domain set
(`certcrypto.ExtractDomains`). -/
structure X509Cert where
  isCA : Bool
  nsUntilNotAfter : Int
  domains : List String
deriving Repr, DecidableEq

/-- The days-left value computed inside `needRenewal`:
`int(time.Until(x509Cert.NotAfter).Hours() / 24.0)`, i.e. truncation
toward zero of the exact quotient. -/
def daysLeft (nsUntil : Int) : Int :=
  Int.tdiv nsUntil nsPerDay

/-- Modelled from the spec: the spec states the policy computes
`daysLeft = floor(hours_until(cert.NotAfter) / 24)`, floor rounding toward
negative infinity.  Kept separate from `daysLeft` (the code's value) so the
two can be compared. -/
def daysLeftSpecFloor (nsUntil : Int) : Int :=
  Int.fdiv nsUntil nsPerDay

/-- Embeds `needRenewal` from `cmd_renew.go`.  `log.Fatalf` terminates the
process and is modelled as `Except.error`; the informational
`log.Printf` on the no-renewal path is purely observational and is not
modelled. -/
def needRenewal (x509Cert : X509Cert) (domain : String) (days : Int) :
    Except String Bool :=
  if x509Cert.isCA then
    .error ("[" ++ domain ++ "] Certificate bundle starts with a CA certificate")
  else if days ≥ 0 then
    let notAfter := daysLeft x509Cert.nsUntilNotAfter
    if notAfter > days then .ok false
    else .ok true
  else .ok true

/-- Embeds `merge` from `cmd_renew.go`: for each domain of `nextDomains`, in
order, append it to the accumulated list unless it already occurs there
(case-sensitive string equality); the accumulator starts as
`prevDomains`. -/
def merge (prevDomains nextDomains : List String) : List String :=
  nextDomains.foldl
    (fun acc next => if next ∈ acc then acc else acc ++ [next])
    prevDomains

/-- The elements of `nextDomains`, in order, first occurrences only, that
are not already present in `seen` (the "result so far").  Used only to
state what `merge` appends after `prevDomains`. -/
def newDomains (seen : List String) : List String → List String
  | [] => []
  | x :: xs =>
      if x ∈ seen then newDomains seen xs
      else x :: newDomains (seen ++ [x]) xs

/-- Embeds `renewEnvAccountEmail` from `cmd_renew.go`. -/
def renewEnvAccountEmail : String := "LEGO_ACCOUNT_EMAIL"

/-- Embeds `renewEnvCertDomain` from `cmd_renew.go`. -/
def renewEnvCertDomain : String := "LEGO_CERT_DOMAIN"

/-- Embeds `renewEnvCertPath` from `cmd_renew.go`. -/
def renewEnvCertPath : String := "LEGO_CERT_PATH"

/-- Embeds `renewEnvCertKeyPath` from `cmd_renew.go`. -/
def renewEnvCertKeyPath : String := "LEGO_CERT_KEY_PATH"

/-- Oracles for the external collaborators of `renewForDomains`: the CLI
values (`domains`, `days`, `reuseKey`, `hookName`), the account email put
into the metadata by `renew`, certificate storage
(`readCertificate` yields `certificates[0]`, `readKeyFile` the stored key
bytes, `getFileName` the per-domain file path), key parsing
(`parsePEMPrivateKey`, the parsed key abstracted as a string), the
external ACME client (`obtain`, the certificate resource abstracted as a
string), and the hook runner's result (`hookResult`). -/
structure RenewEnv where
  accountEmail : String
  domains : List String
  readCertificate : Except String X509Cert
  days : Int
  reuseKey : Bool
  readKeyFile : Except String String
  parsePEMPrivateKey : String → Except String String
  obtain : Except String String
  getFileName : String → String → String
  hookName : String
  hookResult : Except String Unit

/-- Terminal outcome of one run: either the process was terminated by a
`log.Fatal` call (so no hook ever runs), or the function returned,
having launched the recorded hook invocations (hook name with its
metadata) and yielding the recorded error value. -/
inductive RunOutcome where
  | fatal (msg : String)
  | done (hookInvocations : List (String × List (String × String)))
      (result : Except String Unit)

/-- The hook invocations an outcome performed. -/
def RunOutcome.hooks : RunOutcome → List (String × List (String × String))
  | .fatal _ => []
  | .done h _ => h

/-- The hook metadata assembled on the success path of
`renewForDomains`: the account-email entry made by `renew` plus the
domain, certificate-path and key-path entries. -/
def domainsMeta (env : RenewEnv) : List (String × String) :=
  let domain := env.domains.headD ""
  [(renewEnvAccountEmail, env.accountEmail),
   (renewEnvCertDomain, domain),
   (renewEnvCertPath, env.getFileName domain ".crt"),
   (renewEnvCertKeyPath, env.getFileName domain ".key")]

/-- Embeds `renewForDomains` from `cmd_renew.go` over the collaborator oracles.
`log.Fatal`/`log.Fatalf` terminate the process (`RunOutcome.fatal`); the
private-key parse failure on the reuse-key path is returned (`return
errR`), not fatal; `SaveResource` is out-of-scope persistence mechanics
and is modelled as succeeding; the domain set sent to the ACME client is
`merge cert.domains env.domains`, whose answer is the oracle `obtain`.
The CLI layer guarantees `domains` is non-empty (`domains[0]` is
`headD ""` here). -/
def renewForDomains (env : RenewEnv) : RunOutcome :=
  let domain := env.domains.headD ""
  match env.readCertificate with
  | .error _ =>
      .fatal ("Error while loading the certificate for domain " ++ domain)
  | .ok cert =>
      match needRenewal cert domain env.days with
      | .error msg => .fatal msg
      | .ok false => .done [] (.ok ())
      | .ok true =>
          let keyFailure : Option RunOutcome :=
            if env.reuseKey then
              match env.readKeyFile with
              | .error _ =>
                  some (.fatal
                    ("Error while loading the private key for domain " ++ domain))
              | .ok keyBytes =>
                  match env.parsePEMPrivateKey keyBytes with
                  | .error e => some (.done [] (.error e))
                  | .ok _ => none
            else none
          match keyFailure with
          | some out => out
          | none =>
              match env.obtain with
              | .error msg => .fatal msg
              | .ok _ => .done [(env.hookName, domainsMeta env)] env.hookResult

/-- Oracles for the external collaborators of `renewForCSR`:
`readCSRCommonName` yields the CSR's subject common name, the rest as in
`RenewEnv` (no key-reuse path, `obtainForCSR` instead of `obtain`). -/
structure CSREnv where
  accountEmail : String
  readCSRCommonName : Except String String
  readCertificate : Except String X509Cert
  days : Int
  obtainForCSR : Except String String
  getFileName : String → String → String
  hookName : String
  hookResult : Except String Unit

/-- The hook metadata assembled on the success path of `renewForCSR`
(the domain defaults to `""` when the CSR could not be read, in which
case the metadata is never used). -/
def csrMeta (env : CSREnv) : List (String × String) :=
  let domain := match env.readCSRCommonName with
    | .error _ => ""
    | .ok d => d
  [(renewEnvAccountEmail, env.accountEmail),
   (renewEnvCertDomain, domain),
   (renewEnvCertPath, env.getFileName domain ".crt"),
   (renewEnvCertKeyPath, env.getFileName domain ".key")]

/-- Embeds `renewForCSR` from `cmd_renew.go` over the collaborator oracles; as
in `renewForDomains`, every `log.Fatal` is `RunOutcome.fatal` and
`SaveResource` is out-of-scope persistence modelled as succeeding. -/
def renewForCSR (env : CSREnv) : RunOutcome :=
  match env.readCSRCommonName with
  | .error msg => .fatal msg
  | .ok domain =>
      match env.readCertificate with
      | .error _ =>
          .fatal ("Error while loading the certificate for domain " ++ domain)
      | .ok cert =>
          match needRenewal cert domain env.days with
          | .error msg => .fatal msg
          | .ok false => .done [] (.ok ())
          | .ok true =>
              match env.obtainForCSR with
              | .error msg => .fatal msg
              | .ok _ => .done [(env.hookName, csrMeta env)] env.hookResult

/-- Whether the domain-driven run reaches issuance and issuance
succeeds: the stored certificate loads, the Decision Policy answers
`true` (no CA certificate, renewal due), the optional key-reuse step
succeeds, and the ACME client's `Obtain` succeeds. -/
def domainsIssuanceOk (env : RenewEnv) : Bool :=
  match env.readCertificate with
  | .error _ => false
  | .ok cert =>
      match needRenewal cert (env.domains.headD "") env.days with
      | .ok true =>
          (if env.reuseKey then
            match env.readKeyFile with
            | .error _ => false
            | .ok keyBytes =>
                match env.parsePEMPrivateKey keyBytes with
                | .error _ => false
                | .ok _ => true
          else true)
          && (match env.obtain with
              | .error _ => false
              | .ok _ => true)
      | _ => false

/-- Whether the CSR-driven run reaches issuance and issuance succeeds. -/
def csrIssuanceOk (env : CSREnv) : Bool :=
  match env.readCSRCommonName with
  | .error _ => false
  | .ok domain =>
      match env.readCertificate with
      | .error _ => false
      | .ok cert =>
          match needRenewal cert domain env.days with
          | .ok true =>
              match env.obtainForCSR with
              | .error _ => false
              | .ok _ => true
          | _ => false

end Cmd

namespace Arvancloud

/-- Embeds `minTTL` from `arvancloud.go`. -/
def minTTL : Int := 600

/-- The one datum of an `http.Client` the provider code touches: its
timeout (nanoseconds). -/
structure HTTPClient where
  timeout : Int
deriving Repr, DecidableEq

/-- Embeds `Config` from `arvancloud.go`; a Go nil `*http.Client` is `none`,
durations are nanoseconds. -/
structure Config where
  apiKey : String
  propagationTimeout : Int
  pollingInterval : Int
  ttl : Int
  httpClient : Option HTTPClient
deriving Repr, DecidableEq

/-- Modelled from the spec: the backend client of package `internal`
(not among the analysed sources) owns the credential and an HTTP client;
`internal.NewClient(apiKey)` builds one, its built-in default HTTP
client abstracted as `none`. -/
structure Client where
  apiKey : String
  httpClient : Option HTTPClient
deriving Repr, DecidableEq

/-- Embeds `DNSProvider` from `arvancloud.go`. -/
structure DNSProvider where
  config : Config
  client : Client
deriving Repr, DecidableEq

/-- Embeds `NewDefaultConfig` from `arvancloud.go` with no environment
overrides: TTL `minTTL`, propagation timeout 120 s, polling interval
2 s, HTTP timeout 30 s (durations in nanoseconds; `APIKey` is the Go
zero value). -/
def NewDefaultConfig : Config :=
  { apiKey := ""
    propagationTimeout := 120 * 1000000000
    pollingInterval := 2 * 1000000000
    ttl := minTTL
    httpClient := some ⟨30 * 1000000000⟩ }

/-- Embeds `NewDNSProviderConfig` from `arvancloud.go`; a Go nil `*Config` is
`none`, the returned errors are its `ConfigurationError`s (messages
abbreviated). -/
def NewDNSProviderConfig (config : Option Config) :
    Except String DNSProvider :=
  match config with
  | none => .error "arvanCloud: the configuration of the DNS provider is nil"
  | some config =>
      if config.apiKey = "" then
        .error "arvanCloud: credentials missing"
      else if config.ttl < minTTL then
        .error "arvanCloud: invalid TTL, TTL must be greater than minTTL"
      else
        let client : Client := { apiKey := config.apiKey, httpClient := none }
        let client :=
          if config.httpClient.isSome then
            { client with httpClient := config.httpClient }
          else client
        .ok { config := config, client := client }

/-- Embeds `Timeout` from `arvancloud.go`. -/
def Timeout (d : DNSProvider) : Int × Int :=
  (d.config.propagationTimeout, d.config.pollingInterval)

/-- Modelled from the spec: `dns01.GetRecord(domain, keyAuth)` (package
`dns01`, not among the analysed sources) — the fully-qualified challenge
name is computed externally as `_acme-challenge.<domain>` (an FQDN, so
with a trailing dot), and the published value is a value derived from
the key authorisation alone; the derivation (a digest) is abstracted as
an injective tagging of `keyAuth`. -/
def GetRecord (domain keyAuth : String) : String × String :=
  ("_acme-challenge." ++ domain ++ ".", "digest-" ++ keyAuth)

/-- Modelled from the spec: `dns01.UnFqdn` drops the trailing dot of a
fully-qualified name. -/
def UnFqdn (s : String) : String :=
  if s.toList.getLast? = some '.' then String.mk s.toList.dropLast else s

/-- First index at which `pat` occurs as a contiguous run inside `s`
(`strings.Index`; `none` is Go's `-1`). -/
def listIndexOfSublist (pat : List Char) : List Char → Option Nat
  | [] => if pat = [] then some 0 else none
  | c :: rest =>
      if pat.isPrefixOf (c :: rest) then some 0
      else (listIndexOfSublist pat rest).map (· + 1)

/-- Embeds `extractRecordName` from `arvancloud.go`: un-FQDN the challenge
name, then cut everything from the first occurrence of `"." ++ domain`
(the managed-zone suffix); if the suffix does not occur, keep the whole
name.  (The Go receiver is unused.) -/
def extractRecordName (fqdn domain : String) : String :=
  let name := UnFqdn fqdn
  match listIndexOfSublist ("." ++ domain).toList name.toList with
  | some idx => String.mk (name.toList.take idx)
  | none => name

/-- Embeds `internal.TxtValue`. -/
structure TxtValue where
  text : String
deriving Repr, DecidableEq

/-- Embeds `internal.IPFilterMode`. -/
structure IPFilterMode where
  count : String
  geoFilter : String
  order : String
deriving Repr, DecidableEq

/-- Embeds `internal.DNSRecord`, together with the backend-assigned opaque
identifier used for deletion. -/
structure DNSRecord where
  id : String
  type : String
  name : String
  value : TxtValue
  ttl : Int
  upstreamHTTPS : String
  ipFilterMode : IPFilterMode
deriving Repr, DecidableEq

/-- Modelled from the spec: the backend's record store for the managed
zone of the domain under renewal.  The backend HTTP API itself is
external; its state is passed explicitly to the provider operations. -/
structure Zone where
  records : List DNSRecord
deriving Repr, DecidableEq

/-- Modelled from the spec: the backend assigns each created record an
opaque identifier. -/
def freshId (z : Zone) : String :=
  "rec-" ++ toString z.records.length

/-- Modelled from the spec: `internal.CreateRecord` stores the record
(with its backend-assigned identifier) in the zone; returns the new
state and the record as issued to the backend. -/
def CreateRecord (z : Zone) (r : DNSRecord) : Zone × DNSRecord :=
  let stored := { r with id := freshId z }
  ({ records := z.records ++ [stored] }, stored)

/-- Modelled from the spec: the lookup `find record by domain, name,
value` — the value is part of the key precisely so an unrelated record
with the same name is never selected; an absent record yields no
identifier, which the Go client reports as an error (`none` here). -/
def GetTxtRecord (z : Zone) (name value : String) : Option DNSRecord :=
  z.records.find? fun r =>
    r.type == "txt" && r.name == name && r.value.text == value

/-- Modelled from the spec: `internal.DeleteRecord` deletes by the
opaque identifier; deleting an identifier the backend does not hold
fails. -/
def DeleteRecord (z : Zone) (id : String) : Option Zone :=
  if z.records.any (fun r => r.id == id) then
    some { records := z.records.filter (fun r => r.id != id) }
  else none

/-- Embeds `Present` from `arvancloud.go`, the backend zone state passed
explicitly: build the TXT record from the challenge name and value and
issue it to the backend.  Returns the updated state together with the
record issued. -/
def Present (d : DNSProvider) (z : Zone) (domain token keyAuth : String) :
    Except String (Zone × DNSRecord) :=
  let fv := GetRecord domain keyAuth
  let record : DNSRecord :=
    { id := ""
      type := "txt"
      name := extractRecordName fv.1 domain
      value := { text := fv.2 }
      ttl := d.config.ttl
      upstreamHTTPS := "default"
      ipFilterMode := { count := "single", geoFilter := "none", order := "none" } }
  .ok (CreateRecord z record)

/-- Embeds `CleanUp` from `arvancloud.go`, the backend zone state passed
explicitly: look the TXT record up by name and value to obtain its
identifier, then delete by that identifier; either step's failure is
returned as an error (messages abbreviated). -/
def CleanUp (z : Zone) (domain token keyAuth : String) :
    Except String Zone :=
  let fv := GetRecord domain keyAuth
  let recordName := extractRecordName fv.1 domain
  match GetTxtRecord z recordName fv.2 with
  | none => .error "arvanCloud: record not found"
  | some record =>
      match DeleteRecord z record.id with
      | none => .error "arvanCloud: failed to delate TXT record"
      | some zNew => .ok zNew

/-- The configuration used to refute the claimed `Timeout` invariant:
accepted by construction, yet with zero propagation timeout and zero
polling interval. -/
def badTimingConfig : Config :=
  { apiKey := "k"
    propagationTimeout := 0
    pollingInterval := 0
    ttl := 600
    httpClient := none }

end Arvancloud

namespace Cmd

theorem merge_cons (p : List String) (x : String) (n : List String) :
    merge p (x :: n) = if x ∈ p then merge p n else merge (p ++ [x]) n := by
  by_cases hx : x ∈ p <;> simp [merge, List.foldl, hx]

theorem merge_eq_append (n p : List String) :
    merge p n = p ++ newDomains p n := by
  induction n generalizing p with
  | nil => simp [merge, newDomains]
  | cons x xs ih =>
      by_cases hx : x ∈ p
      · rw [merge_cons, if_pos hx, newDomains, if_pos hx, ih]
      · rw [merge_cons, if_neg hx, ih (p ++ [x])]
        simp [newDomains, hx]

theorem mem_merge_left {a : String} {p : List String} (n : List String)
    (h : a ∈ p) : a ∈ merge p n := by
  rw [merge_eq_append]; exact List.mem_append_left _ h

theorem mem_merge_right {a : String} (n p : List String)
    (h : a ∈ n) : a ∈ merge p n := by
  induction n generalizing p with
  | nil => cases h
  | cons x xs ih =>
      rw [merge_cons]
      rcases List.mem_cons.mp h with rfl | hxs
      · by_cases hx : a ∈ p
        · rw [if_pos hx]; exact mem_merge_left xs hx
        · rw [if_neg hx]
          exact mem_merge_left xs (List.mem_append_right _ (List.mem_singleton_self a))
      · by_cases hx : x ∈ p
        · rw [if_pos hx]; exact ih p hxs
        · rw [if_neg hx]; exact ih (p ++ [x]) hxs

theorem merge_eq_self (n p : List String) (h : ∀ a ∈ n, a ∈ p) :
    merge p n = p := by
  induction n with
  | nil => rfl
  | cons x xs ih =>
      rw [merge_cons, if_pos (h x (List.mem_cons_self x xs))]
      exact ih fun a ha => h a (List.mem_cons_of_mem x ha)

theorem mem_newDomains_iff (n : List String) :
    ∀ (seen : List String) (a : String),
      a ∈ newDomains seen n ↔ a ∈ n ∧ a ∉ seen := by
  induction n with
  | nil => intro seen a; simp [newDomains]
  | cons x xs ih =>
      intro seen a
      by_cases hx : x ∈ seen
      · rw [newDomains, if_pos hx, ih]
        constructor
        · rintro ⟨ha, hs⟩; exact ⟨List.mem_cons_of_mem x ha, hs⟩
        · rintro ⟨ha, hs⟩
          rcases List.mem_cons.mp ha with rfl | ha
          · exact absurd hx hs
          · exact ⟨ha, hs⟩
      · rw [newDomains, if_neg hx]
        simp only [List.mem_cons, ih (seen ++ [x]) a, List.mem_append,
          List.mem_singleton]
        constructor
        · rintro (rfl | ⟨ha, hs⟩)
          · exact ⟨Or.inl rfl, hx⟩
          · exact ⟨Or.inr ha, fun hmem => hs (Or.inl hmem)⟩
        · rintro ⟨rfl | ha, hs⟩
          · exact Or.inl rfl
          · by_cases hax : a = x
            · exact Or.inl hax
            · exact Or.inr ⟨ha, by simp [hs, hax]⟩

theorem newDomains_nodup (n : List String) :
    ∀ seen : List String, (newDomains seen n).Nodup := by
  induction n with
  | nil => intro seen; simp [newDomains]
  | cons x xs ih =>
      intro seen
      by_cases hx : x ∈ seen
      · rw [newDomains, if_pos hx]; exact ih seen
      · rw [newDomains, if_neg hx]
        refine List.nodup_cons.mpr ⟨fun hmem => ?_, ih (seen ++ [x])⟩
        exact ((mem_newDomains_iff xs (seen ++ [x]) x).mp hmem).2
          (List.mem_append_right _ (List.mem_singleton_self x))

theorem newDomains_toFinset (n seen : List String) :
    (newDomains seen n).toFinset = n.toFinset \ seen.toFinset := by
  ext a
  simp [List.mem_toFinset, Finset.mem_sdiff, mem_newDomains_iff]

/-- C1: for a non-CA certificate, any domain and any threshold,
`needRenewal` answers `ok true` exactly when the threshold is negative
(force-renew) or the computed days-left is at most the threshold
(boundary inclusive), and answers `ok false` — a normal, non-error
outcome — exactly when the threshold is non-negative and strictly below
the days-left. -/
theorem needRenewal_true_iff (cert : X509Cert) (domain : String)
    (days : Int) (h : cert.isCA = false) :
    (needRenewal cert domain days = .ok true ↔
      days < 0 ∨ daysLeft cert.nsUntilNotAfter ≤ days) ∧
    (needRenewal cert domain days = .ok false ↔
      0 ≤ days ∧ days < daysLeft cert.nsUntilNotAfter) := by
  by_cases hd : days ≥ 0
  · by_cases hgt : daysLeft cert.nsUntilNotAfter > days
    · simp only [needRenewal, h, Bool.false_eq_true, if_false, if_pos hd,
        if_pos hgt]
      constructor <;> simp <;> omega
    · simp only [needRenewal, h, Bool.false_eq_true, if_false, if_pos hd,
        if_neg hgt]
      constructor <;> simp <;> omega
  · simp only [needRenewal, h, Bool.false_eq_true, if_false, if_neg hd]
    constructor <;> simp <;> omega

/-- C1 witness: threshold 30, certificate expiring in exactly 30 days
(2592000000000000 ns): renewal is due. -/
theorem needRenewal_true_iff_witness :
    needRenewal ⟨false, 2592000000000000, []⟩ "example.com" 30 = .ok true :=
  (needRenewal_true_iff ⟨false, 2592000000000000, []⟩ "example.com" 30
    rfl).1.mpr (Or.inr (by decide))

/-- C2: `merge prev next` is `prev` itself — unchanged and in order, as
a prefix — followed by exactly those domains of `next` not already
present in the result so far, in `next`'s order; its length is hence
`prev`'s length plus the number of distinct domains of `next` outside
`prev`; and `merge ["a.com"] ["a.com", "b.com"]` is
`["a.com", "b.com"]`. -/
theorem merge_prev_then_new :
    (∀ p n : List String,
      merge p n = p ++ newDomains p n ∧
      (merge p n).length = p.length + (n.toFinset \ p.toFinset).card) ∧
    merge ["a.com"] ["a.com", "b.com"] = ["a.com", "b.com"] := by
  refine ⟨fun p n => ⟨merge_eq_append n p, ?_⟩, by decide⟩
  rw [merge_eq_append n p, List.length_append, ← newDomains_toFinset n p,
    List.toFinset_card_of_nodup (newDomains_nodup n p)]

/-- C9: `merge` is idempotent in its second argument. -/
theorem merge_idempotent (p n : List String) :
    merge (merge p n) n = merge p n :=
  merge_eq_self n (merge p n) fun a ha => mem_merge_right n p ha

/-- C7: for a CA-flagged certificate, `needRenewal` is fatal (the run
terminates with the CA-bundle message) and yields no boolean. -/
theorem needRenewal_isCA_fatal (cert : X509Cert) (domain : String)
    (days : Int) (h : cert.isCA = true) :
    needRenewal cert domain days =
      .error ("[" ++ domain ++
        "] Certificate bundle starts with a CA certificate") := by
  simp [needRenewal, h]

/-- C7 witness: a concrete CA certificate is fatal for `needRenewal`. -/
theorem needRenewal_isCA_fatal_witness :
    needRenewal ⟨true, 0, []⟩ "example.com" 30 =
      .error ("[" ++ "example.com" ++
        "] Certificate bundle starts with a CA certificate") :=
  needRenewal_isCA_fatal ⟨true, 0, []⟩ "example.com" 30 rfl

/-- C5 counterexample: for a certificate 12 hours past expiry
(−43200000000000 ns), the days-left value computed by the policy
(`daysLeft`, Go `int(hours/24)`, truncation toward zero) is `0`, while
the floor the claim asserts is `−1`. -/
theorem daysLeft_not_floor :
    daysLeft (-43200000000000) = 0 ∧
    daysLeftSpecFloor (-43200000000000) = -1 ∧
    daysLeft (-43200000000000) ≠ daysLeftSpecFloor (-43200000000000) :=
  ⟨by decide, by decide, by decide⟩

/-- C5 amended: the days-left value used by the Decision Policy is the
truncation toward zero of `hours_until(NotAfter) / 24` (Go `int(...)`),
which agrees with the floor whenever `NotAfter` is not in the past; for a
non-CA certificate and non-negative threshold the policy answers with
the inclusive comparison of that value against the threshold. -/
theorem daysLeft_truncates (cert : X509Cert) (domain : String)
    (days : Int) (h : cert.isCA = false) (hd : 0 ≤ days) :
    needRenewal cert domain days =
      .ok (decide (daysLeft cert.nsUntilNotAfter ≤ days)) ∧
    (0 ≤ cert.nsUntilNotAfter →
      daysLeft cert.nsUntilNotAfter =
        daysLeftSpecFloor cert.nsUntilNotAfter) := by
  constructor
  · by_cases hgt : daysLeft cert.nsUntilNotAfter > days
    · simp only [needRenewal, h, Bool.false_eq_true, if_false,
        if_pos (ge_iff_le.mpr hd), if_pos hgt]
      congr 1
      exact (decide_eq_false (by omega)).symm
    · simp only [needRenewal, h, Bool.false_eq_true, if_false,
        if_pos (ge_iff_le.mpr hd), if_neg hgt]
      congr 1
      exact (decide_eq_true (by omega)).symm
  · intro hns
    unfold daysLeft daysLeftSpecFloor
    exact (Int.fdiv_eq_tdiv hns (by decide)).symm

/-- C5 amended witness: certificate expiring in exactly 30 days,
threshold 30. -/
theorem daysLeft_truncates_witness :
    needRenewal ⟨false, 2592000000000000, []⟩ "other.example" 30 =
      .ok (decide (daysLeft 2592000000000000 ≤ 30)) ∧
    (0 ≤ (2592000000000000 : Int) →
      daysLeft 2592000000000000 = daysLeftSpecFloor 2592000000000000) :=
  daysLeft_truncates ⟨false, 2592000000000000, []⟩ "other.example" 30 rfl
    (by decide)

end Cmd

namespace Arvancloud

/-- C3 counterexample: `NewDNSProviderConfig` accepts a configuration
with zero propagation timeout and zero polling interval (only the
credential and the TTL are validated), and `Timeout` then returns
`(0, 0)`, violating `0 < pollInterval < timeout`. -/
theorem Timeout_invariant_fails :
    NewDNSProviderConfig (some badTimingConfig) =
      .ok { config := badTimingConfig,
            client := { apiKey := "k", httpClient := none } } ∧
    Timeout { config := badTimingConfig,
              client := { apiKey := "k", httpClient := none } } = (0, 0) ∧
    ¬(0 < (0 : Int) ∧ (0 : Int) < 0) :=
  ⟨rfl, rfl, by decide⟩

theorem Timeout_of_ok (cfg : Config) (p : DNSProvider)
    (h : NewDNSProviderConfig (some cfg) = .ok p) :
    Timeout p = (cfg.propagationTimeout, cfg.pollingInterval) := by
  simp only [NewDNSProviderConfig] at h
  split_ifs at h <;> simp only [Except.ok.injEq] at h <;> (subst h; rfl)

/-- C3 amended: `Timeout` returns exactly the configured
`(propagationTimeout, pollingInterval)` pair for every successfully
constructed provider — construction does not validate these fields — and
the default configuration does satisfy
`0 < pollingInterval < propagationTimeout`. -/
theorem Timeout_eq_config :
    (∀ (cfg : Config) (p : DNSProvider),
      NewDNSProviderConfig (some cfg) = .ok p →
      Timeout p = (cfg.propagationTimeout, cfg.pollingInterval)) ∧
    (∀ p : DNSProvider,
      NewDNSProviderConfig (some { NewDefaultConfig with apiKey := "k" }) =
        .ok p →
      0 < (Timeout p).2 ∧ (Timeout p).2 < (Timeout p).1) := by
  constructor
  · exact fun cfg p h => Timeout_of_ok cfg p h
  · intro p h
    rw [Timeout_of_ok _ p h]
    decide

/-- C3 amended witness: the provider built from the default
configuration (with a credential) has polling interval 2 s and
propagation timeout 120 s. -/
theorem Timeout_eq_config_witness :
    0 < (Timeout { config := { NewDefaultConfig with apiKey := "k" },
                   client := { apiKey := "k",
                               httpClient := some ⟨30000000000⟩ } }).2 ∧
    (Timeout { config := { NewDefaultConfig with apiKey := "k" },
               client := { apiKey := "k",
                           httpClient := some ⟨30000000000⟩ } }).2 <
      (Timeout { config := { NewDefaultConfig with apiKey := "k" },
                 client := { apiKey := "k",
                             httpClient := some ⟨30000000000⟩ } }).1 :=
  Timeout_eq_config.2 _ rfl

/-- C8: construction returns a `ConfigurationError` exactly on a nil
configuration, a missing credential, or a TTL below the floor
`minTTL = 600`; in every other case a provider is returned with no
error. -/
theorem NewDNSProviderConfig_error_iff :
    minTTL = 600 ∧
    ∀ c : Option Config,
      ((∃ e, NewDNSProviderConfig c = .error e) ↔
        c = none ∨ ∃ cfg, c = some cfg ∧ (cfg.apiKey = "" ∨ cfg.ttl < 600)) ∧
      ((∃ p, NewDNSProviderConfig c = .ok p) ↔
        ∃ cfg, c = some cfg ∧ cfg.apiKey ≠ "" ∧ ¬cfg.ttl < 600) := by
  refine ⟨rfl, fun c => ?_⟩
  cases c with
  | none => simp [NewDNSProviderConfig]
  | some cfg =>
      by_cases h1 : cfg.apiKey = "" <;> by_cases h2 : cfg.ttl < 600 <;>
        simp [NewDNSProviderConfig, minTTL, h1, h2] <;> omega

/-- C4 counterexample: on a backend state holding no records — the
challenge record already absent — `CleanUp` returns the failed lookup as
an error instead of tolerating the absence. -/
theorem CleanUp_absent_errors :
    CleanUp { records := [] } "example.com" "tok" "keyAuth" =
      .error "arvanCloud: record not found" := rfl

/-- C4 amended: whenever the lookup finds no record matching the
challenge name and value (already cleaned, or never created), `CleanUp`
propagates that lookup failure as an error; absence is not tolerated by
this provider. -/
theorem CleanUp_propagates_absence (z : Zone)
    (domain token keyAuth : String)
    (h : GetTxtRecord z
        (extractRecordName (GetRecord domain keyAuth).1 domain)
        (GetRecord domain keyAuth).2 = none) :
    CleanUp z domain token keyAuth =
      .error "arvanCloud: record not found" := by
  simp only [CleanUp]
  rw [h]

/-- C4 amended witness: the empty backend state. -/
theorem CleanUp_propagates_absence_witness :
    CleanUp { records := [] } "other.example" "tok" "ka" =
      .error "arvanCloud: record not found" :=
  CleanUp_propagates_absence { records := [] } "other.example" "tok" "ka"
    rfl

/-- C10: `Present` and `CleanUp` do not depend on the token argument:
with the same domain, key authorisation and backend state, two calls
differing only in the token issue the same backend operations and return
the same results. -/
theorem token_independent (d : DNSProvider) (z : Zone)
    (domain keyAuth t1 t2 : String) :
    Present d z domain t1 keyAuth = Present d z domain t2 keyAuth ∧
    CleanUp z domain t1 keyAuth = CleanUp z domain t2 keyAuth :=
  ⟨rfl, rfl⟩

end Arvancloud

namespace Cmd

/-- C6: in both entry variants, the hook is launched exactly once — with
metadata whose keys are exactly the account email, certificate domain,
certificate path and key path — precisely when the run reaches issuance
and issuance succeeds; on a skip decision, any fatal failure, or a
returned key-parse error no hook is launched. -/
theorem hook_iff_issuance :
    (∀ env : RenewEnv,
      (renewForDomains env).hooks =
        (if domainsIssuanceOk env then [(env.hookName, domainsMeta env)]
         else []) ∧
      (domainsMeta env).map Prod.fst =
        [renewEnvAccountEmail, renewEnvCertDomain, renewEnvCertPath,
         renewEnvCertKeyPath]) ∧
    (∀ env : CSREnv,
      (renewForCSR env).hooks =
        (if csrIssuanceOk env then [(env.hookName, csrMeta env)]
         else []) ∧
      (csrMeta env).map Prod.fst =
        [renewEnvAccountEmail, renewEnvCertDomain, renewEnvCertPath,
         renewEnvCertKeyPath]) := by
  constructor
  · intro env
    refine ⟨?_, rfl⟩
    rcases h1 : env.readCertificate with e | cert
    · simp [renewForDomains, domainsIssuanceOk, RunOutcome.hooks, h1]
    · rcases h2 : needRenewal cert (env.domains.head?.getD "") env.days with m | b
      · simp [renewForDomains, domainsIssuanceOk, RunOutcome.hooks, h1, h2]
      · cases b
        · simp [renewForDomains, domainsIssuanceOk, RunOutcome.hooks, h1, h2]
        · cases h3 : env.reuseKey
          · rcases h4 : env.obtain with m | r <;>
              simp [renewForDomains, domainsIssuanceOk, RunOutcome.hooks,
                h1, h2, h3, h4]
          · rcases h4 : env.readKeyFile with e | keyBytes
            · simp [renewForDomains, domainsIssuanceOk, RunOutcome.hooks,
                h1, h2, h3, h4]
            · rcases h5 : env.parsePEMPrivateKey keyBytes with e | k
              · simp [renewForDomains, domainsIssuanceOk, RunOutcome.hooks,
                  h1, h2, h3, h4, h5]
              · rcases h6 : env.obtain with m | r <;>
                  simp [renewForDomains, domainsIssuanceOk, RunOutcome.hooks,
                    h1, h2, h3, h4, h5, h6]
  · intro env
    refine ⟨?_, rfl⟩
    rcases h1 : env.readCSRCommonName with m | domain
    · simp [renewForCSR, csrIssuanceOk, RunOutcome.hooks, h1]
    · rcases h2 : env.readCertificate with e | cert
      · simp [renewForCSR, csrIssuanceOk, RunOutcome.hooks, h1, h2]
      · rcases h3 : needRenewal cert domain env.days with m | b
        · simp [renewForCSR, csrIssuanceOk, RunOutcome.hooks, h1, h2, h3]
        · cases b
          · simp [renewForCSR, csrIssuanceOk, RunOutcome.hooks, h1, h2, h3]
          · rcases h4 : env.obtainForCSR with m | r <;>
              simp [renewForCSR, csrIssuanceOk, RunOutcome.hooks,
                h1, h2, h3, h4]

end Cmd
